import Mathlib

/-!
Verification development for the uatiari XP code-review pipeline.

The Python modules under src/uatiari (graph/nodes.py, graph/workflow.py,
skills_manager.py, tools/git_tools.py, cli.py, prompts/skills/laravel.py)
are shallowly embedded below.  Python dictionaries are modelled as
association lists with dictionary update semantics, JSON values as an
inductive type, subprocess/LLM effects as explicit inputs, and exceptions
as Except / Option results.  Python float arithmetic on the test ratio is
modelled with exact rationals.
-/

namespace Uatiari

/-- Characters stripped by the Python str.strip method (ASCII whitespace). -/
def pyWhitespace (c : Char) : Bool :=
  c = ' ' || c = '\t' || c = '\n' || c = '\r' || c = '\x0b' || c = '\x0c'

/-- Embedding of the Python expression s.strip(). -/
def pyStrip (s : String) : String :=
  String.mk (((s.data.dropWhile pyWhitespace).reverse.dropWhile pyWhitespace).reverse)

/-- Embedding of the Python substring test: pat in s. -/
def strIn (pat s : String) : Bool :=
  go s.data
where
  go : List Char → Bool
    | [] => pat.data.isPrefixOf []
    | c :: cs => pat.data.isPrefixOf (c :: cs) || go cs

/-- Truthiness of an optional Python string: None and the empty string are falsy. -/
def pyTruthy : Option String → Bool
  | none => false
  | some s => !(s == "")

/-- Embedding of the Python method s.lower() (ASCII case folding). -/
def pyLower (s : String) : String := String.mk (s.data.map Char.toLower)

/-- Embedding of the Python method s.startswith(pre). -/
def pyStartsWith (s pre : String) : Bool := pre.data.isPrefixOf s.data

/-- Embedding of the Python method s.endswith(suf). -/
def pyEndsWith (s suf : String) : Bool := suf.data.isSuffixOf s.data

/-- Embedding of the Python method s.split(sep) for a one-character
separator (the source only ever splits on a newline or a tab). -/
def pySplitOn (sep : Char) (s : String) : List String :=
  go s.data []
where
  go : List Char → List Char → List String
    | [], acc => [String.mk acc.reverse]
    | c :: cs, acc =>
        if c = sep then String.mk acc.reverse :: go cs [] else go cs (c :: acc)

/-- JSON values, as produced by json.loads.  Numbers are modelled as exact
rationals (covering both Python ints and the float ratio written by the
scoring step). -/
inductive JValue where
  | jnull
  | jbool (b : Bool)
  | jnum (q : ℚ)
  | jstr (s : String)
  | jarr (elems : List JValue)
  | jobj (fields : List (String × JValue))

/-- Dictionary lookup on the association-list model of a Python dict. -/
def getKey : List (String × JValue) → String → Option JValue
  | [], _ => none
  | (k, v) :: rest, key => if k = key then some v else getKey rest key

/-- Dictionary assignment d[key] = v: replaces the value at an existing key
in place, otherwise appends (CPython insertion-order semantics). -/
def setKey : List (String × JValue) → String → JValue → List (String × JValue)
  | [], key, v => [(key, v)]
  | (k, w) :: rest, key, v =>
      if k = key then (key, v) :: rest else (k, w) :: setKey rest key v

/-- Lookup on a JSON value; only objects have keys. -/
def JValue.lookup : JValue → String → Option JValue
  | .jobj fs, key => getKey fs key
  | _, _ => none

/-! ### Deterministic test-coverage scoring (graph/nodes.py, execute_review) -/

/-- A diff-stats mapping: file path to (added, deleted) line counts,
as returned by get_diff_stats. -/
abbrev DiffStats := List (String × Nat × Nat)

/-- The classification test from execute_review: "test" in filename.lower(). -/
def isTestFile (filename : String) : Bool :=
  strIn "test" (pyLower filename)

/-- The accumulation loop of execute_review: for each (filename, (added, _))
entry, add the added count to test_lines when the file is a test file and to
prod_lines otherwise.  Result is (prod_lines, test_lines). -/
def computeTestStats (diff_stats : DiffStats) : Nat × Nat :=
  diff_stats.foldl
    (fun acc e =>
      if isTestFile e.1 then (acc.1, acc.2 + e.2.1) else (acc.1 + e.2.1, acc.2))
    (0, 0)

/-- The ratio computation of execute_review: ratio = 0.0, overwritten with
test_lines / prod_lines when prod_lines > 0, with 100.0 when prod_lines = 0
and test_lines > 0. -/
def ratioVal (prod_lines test_lines : Nat) : ℚ :=
  if prod_lines > 0 then (test_lines : ℚ) / (prod_lines : ℚ)
  else if test_lines > 0 then 100
  else 0

/-- The verdict chain of execute_review, in source order. -/
def verdictVal (prod_lines test_lines : Nat) : String :=
  let r := ratioVal prod_lines test_lines
  if r ≥ 1 then "EXCELLENT"
  else if r ≥ 1 / 2 then "GOOD"
  else if r > 0 then "ACCEPTABLE"
  else if prod_lines == 0 && test_lines == 0 then "N/A"
  else "MISSING"

/-- Production lines computed for a diff-stats mapping. -/
def prodLinesOf (stats : DiffStats) : Nat := (computeTestStats stats).1

/-- Test lines computed for a diff-stats mapping. -/
def testLinesOf (stats : DiffStats) : Nat := (computeTestStats stats).2

/-- Ratio computed for a diff-stats mapping. -/
def ratioOf (stats : DiffStats) : ℚ := ratioVal (prodLinesOf stats) (testLinesOf stats)

/-- Verdict computed for a diff-stats mapping. -/
def verdictOf (stats : DiffStats) : String := verdictVal (prodLinesOf stats) (testLinesOf stats)

/-! ### Skills (prompts/skills/laravel.py, skills_manager.py) -/

/-- A review skill: stable lowercase name, detection over the repository
file listing and the changed files, and the report metadata it contributes.
The prompt addon text plays no role in the verified properties and is not
carried. -/
structure Skill where
  name : String
  detect : List String → List String → Bool
  metadata : JValue

/-- The marker directories checked by LaravelSkill.detect. -/
def laravelMarkerDirs : List String := ["app/", "routes/", "config/", "database/"]

/-- Embedding of LaravelSkill: detect requires a changed .php file plus
either a root marker file (artisan or composer.json) or a path under one of
the marker directories. -/
def laravelSkill : Skill where
  name := "laravel"
  detect := fun file_paths changed_files =>
    let has_php_changes := changed_files.any (fun f => pyEndsWith f ".php")
    if !has_php_changes then false
    else if file_paths.contains "artisan" || file_paths.contains "composer.json" then true
    else file_paths.any (fun path => laravelMarkerDirs.any (fun marker => pyStartsWith path marker))
  metadata := .jobj
    [("name", .jstr "laravel"),
     ("focus_areas", .jarr [.jstr "performance", .jstr "mysql", .jstr "security"])]

/-- The registry of available skills ([LaravelSkill()] in both
skills_manager.py and graph/nodes.py). -/
def availableSkills : List Skill := [laravelSkill]

/-- The per-skill activation decision shared by SkillManager.detect_skills
and the loop in execute_review: a truthy manual override that equals the
skill name after lowercasing activates the skill; with no truthy override,
automatic detection decides. -/
def skillIsActive (manual_skill : Option String) (skill : Skill)
    (repo_files changed_files : List String) : Bool :=
  if pyTruthy manual_skill && (pyLower (manual_skill.getD "") == skill.name) then true
  else if !pyTruthy manual_skill && skill.detect repo_files changed_files then true
  else false

/-- Embedding of SkillManager.detect_skills: the active-skill list collected
in registry order. -/
def detect_skills (manual_skill : Option String)
    (repo_files changed_files : List String) : List Skill :=
  availableSkills.filter (fun skill => skillIsActive manual_skill skill repo_files changed_files)

/-- The metadata record injected by execute_review when at least one skill
is active; primary is active_skills[0]. -/
def skillMetadata (primary : Skill) (active : List Skill)
    (manual_skill : Option String) : JValue :=
  .jobj
    [("framework_detected", .jstr primary.name),
     ("skills_applied", .jarr (active.map (fun s => .jstr s.name))),
     ("detection_method", .jstr (if pyTruthy manual_skill then "manual" else "automatic")),
     ("skill_details", .jarr (active.map (fun s => s.metadata)))]

/-! ### JSON extraction from the model response (execute_review) -/

/-- The fence-stripping loop of execute_review: fence-marker lines toggle the
in_json flag and are dropped; every other line is retained (the redundant
second condition of the source is kept verbatim even though it is always
true after the first). -/
def stripFenceLines : List String → Bool → List String
  | [], _ => []
  | line :: rest, in_json =>
      if pyStartsWith line "```" then stripFenceLines rest (!in_json)
      else if in_json || !(pyStartsWith line "```") then line :: stripFenceLines rest in_json
      else stripFenceLines rest in_json

/-- JSON extraction from the raw model response: strip, and when the text
starts with a code fence, drop fence lines and re-strip. -/
def extractJsonContent (responseText : String) : String :=
  let content := pyStrip responseText
  if pyStartsWith content "```" then
    pyStrip (String.intercalate "\n" (stripFenceLines (pySplitOn '\n' content) false))
  else content

/-! ### Workflow state (graph/state.py and the keys used by graph/nodes.py) -/

/-- The LangGraph review state.  Keys that may be absent from the state dict
(diff_stats, manual_framework) are modelled as options, matching the
state.get defaults in graph/nodes.py. -/
structure ReviewState where
  branch_name : String
  base_branch : String
  diff_content : String
  changed_files : List String
  diff_stats : Option DiffStats
  review_plan : String
  user_approved : Bool
  review_result : JValue
  active_skills : List String
  manual_framework : Option String
  error : Option String

/-! ### execute_review (graph/nodes.py) -/

/-- The review result before metadata and scoring injection: the parsed JSON
when parsing succeeds, otherwise the fallback record built from the original
response text. -/
def parsedReviewResult (response : String) (parse : String → Option JValue) : JValue :=
  match parse (extractJsonContent response) with
  | some v => v
  | none => .jobj
      [("error", .jstr "Invalid JSON response from LLM"),
       ("raw_response", .jstr response)]

/-- The four deterministic assignments into the test_analysis dict, in
source order. -/
def mergeComputedAnalysis (existing_analysis : List (String × JValue))
    (stats : DiffStats) : List (String × JValue) :=
  setKey (setKey (setKey (setKey existing_analysis
    "production_lines" (.jnum (prodLinesOf stats)))
    "test_lines" (.jnum (testLinesOf stats)))
    "ratio" (.jnum (ratioOf stats)))
    "verdict" (.jstr (verdictOf stats))

/-- The scoring-injection block of execute_review.  On a dict result, the
test_analysis entry (defaulting to an empty dict) receives the computed
fields when it is itself a dict and is left alone otherwise; on a non-dict
result the attribute error raised by .get is swallowed by the enclosing
try/except, leaving the result unchanged. -/
def injectTestAnalysis (review_result : JValue) (stats : DiffStats) : JValue :=
  match review_result with
  | .jobj fs =>
      match getKey fs "test_analysis" with
      | some (.jobj efs) => .jobj (setKey fs "test_analysis" (.jobj (mergeComputedAnalysis efs stats)))
      | none => .jobj (setKey fs "test_analysis" (.jobj (mergeComputedAnalysis [] stats)))
      | some _ => .jobj fs
  | other => other

/-- Embedding of execute_review.  The external effects are inputs: the
repository listing (none when list_repository_files raised, handled by the
try/except that falls back to an empty list), the model response text, and
the JSON parser (none models a JSONDecodeError).  Assigning the metadata key
on a non-dict parse result raises a TypeError caught by the outer handler,
which records a stage-level error. -/
def execute_review (state : ReviewState) (repoFilesListing : Option (List String))
    (response : String) (parse : String → Option JValue) : ReviewState :=
  let repo_files := repoFilesListing.getD []
  let active :=
    availableSkills.filter
      (fun skill => skillIsActive state.manual_framework skill repo_files state.changed_files)
  let review_result := parsedReviewResult response parse
  let stats := state.diff_stats.getD []
  match active with
  | [] =>
      { state with
          review_result := injectTestAnalysis review_result stats,
          active_skills := [],
          error := none }
  | s0 :: _ =>
      match review_result with
      | .jobj fs =>
          let withMeta :=
            JValue.jobj (setKey fs "metadata" (skillMetadata s0 active state.manual_framework))
          { state with
              review_result := injectTestAnalysis withMeta stats,
              active_skills := active.map Skill.name,
              error := none }
      | _ => { state with error := some "Failed to execute review: TypeError" }

/-! ### Workflow routing and pipeline tail (graph/workflow.py, cli.py) -/

/-- Embedding of should_continue from uatiari/graph/workflow.py: a truthy
error routes to end, then user approval decides. -/
def should_continue (state : ReviewState) : String :=
  if pyTruthy state.error then "end"
  else if state.user_approved then "execute_review"
  else "end"

/-- Embedding of should_continue from the legacy src/graph/workflow.py
variant, which reads only the error and user_approved keys. -/
def legacy_should_continue (error : Option String) (user_approved : Bool) : String :=
  if pyTruthy error then "end"
  else if user_approved then "execute_review"
  else "end"

/-- Embedding of await_approval: records the human decision. -/
def await_approval (state : ReviewState) (approved : Bool) : ReviewState :=
  { state with user_approved := approved }

/-- Embedding of generate_report: prints and returns the state unchanged. -/
def generate_report (state : ReviewState) : ReviewState := state

/-- The pipeline tail from the approval gate onward, following the graph
edges of uatiari/graph/workflow.py: await_approval, the conditional edge
through should_continue, then execute_review and the unconditional edge to
generate_report.  The boolean reports whether the report stage ran. -/
def runFromApproval (state : ReviewState) (approved : Bool)
    (repoFilesListing : Option (List String)) (response : String)
    (parse : String → Option JValue) : ReviewState × Bool :=
  let afterGate := await_approval state approved
  if should_continue afterGate = "execute_review" then
    (generate_report (execute_review afterGate repoFilesListing response parse), true)
  else (afterGate, false)

/-- The exit-code decision in cli.main: a truthy error in the final state
exits 1, otherwise 0. -/
def mainExitCode (final : ReviewState) : Nat :=
  if pyTruthy final.error then 1 else 0

/-- The initial state dict built by cli.main.  The dict literal carries no
diff_stats, active_skills or manual_framework keys; those absences are
modelled by the option/empty defaults. -/
def initialState (branch base : String) : ReviewState :=
  { branch_name := branch
    base_branch := base
    diff_content := ""
    changed_files := []
    diff_stats := none
    review_plan := ""
    user_approved := false
    review_result := .jobj []
    active_skills := []
    manual_framework := none
    error := none }

/-! ### CLI argument parsing (uatiari/cli.py) -/

/-- Outcome of parse_args: either the process exited with a code, or a
(branch, base) pair was returned. -/
inductive CliOutcome where
  | exited (code : Nat)
  | parsed (branch : String) (base : String)
deriving DecidableEq

/-- The option loop over sys.argv[2:]: --base= updates the base branch, any
other -- option prints an unknown-option error and exits 1, anything else is
ignored. -/
def scanCliOpts : List String → String → Option String
  | [], base => some base
  | arg :: rest, base =>
      if pyStartsWith arg "--base=" then scanCliOpts rest (arg.drop 7)
      else if pyStartsWith arg "--" then none
      else scanCliOpts rest base

/-- Embedding of parse_args from uatiari/cli.py: help/version/update handling
followed by the option loop. -/
def parse_args (argv : List String) : CliOutcome :=
  if argv.length < 2 || argv.contains "--help" || argv.contains "-h" then .exited 0
  else if argv.contains "--version" then .exited 0
  else if argv.getD 1 "" == "update" then .exited 0
  else
    match scanCliOpts (argv.drop 2) "main" with
    | none => .exited 1
    | some base => .parsed (argv.getD 1 "") base

/-! ### Git tools (uatiari/tools/git_tools.py) -/

/-- The git collaborator: repository presence, per-branch existence, and the
stdout of the three diff invocations, indexed by (base, branch). -/
structure GitEnv where
  insideRepo : Bool
  branchOk : String → Bool
  diffOut : String → String → String
  nameOnlyOut : String → String → String
  numstatOut : String → String → String

/-- The distinct GitError messages raised by the branch-comparing
operations.  Each constructor stands for one of the message strings in
git_tools.py (not a git repository / base branch does not exist / branch
does not exist / no differences found / no files changed). -/
inductive GitErr where
  | notAGitRepository
  | baseBranchNotFound (base : String)
  | branchNotFound (branch : String)
  | noDifferences (base branch : String)
  | noFilesChanged (base branch : String)
deriving DecidableEq

/-- The shared validation prefix of get_diff, get_changed_files and
get_diff_stats: repository check, then base branch, then feature branch. -/
def validateBranchPair (env : GitEnv) (branch base : String) : Option GitErr :=
  if !env.insideRepo then some .notAGitRepository
  else if !env.branchOk base then some (.baseBranchNotFound base)
  else if !env.branchOk branch then some (.branchNotFound branch)
  else none

/-- Embedding of get_diff: validation, then the diff text, rejecting output
that is empty after stripping. -/
def get_diff (env : GitEnv) (branch base : String) : Except GitErr String :=
  match validateBranchPair env branch base with
  | some e => .error e
  | none =>
      let out := env.diffOut base branch
      if pyStrip out == "" then .error (.noDifferences base branch)
      else .ok out

/-- The list comprehension of get_changed_files: split on newlines, strip
each entry, keep the non-empty ones. -/
def splitChangedFiles (out : String) : List String :=
  (pySplitOn '\n' out).filterMap
    (fun f => let t := pyStrip f; if t == "" then none else some t)

/-- Embedding of get_changed_files: validation, then the stripped file list,
rejecting an empty list. -/
def get_changed_files (env : GitEnv) (branch base : String) : Except GitErr (List String) :=
  match validateBranchPair env branch base with
  | some e => .error e
  | none =>
      let files := splitChangedFiles (env.nameOnlyOut base branch)
      if files = [] then .error (.noFilesChanged base branch)
      else .ok files

/-- Python str.splitlines restricted to the line breaks git emits
(newline, carriage return, and the two combined). -/
def pySplitlines (s : String) : List String :=
  go s.data []
where
  go : List Char → List Char → List String
    | [], [] => []
    | [], acc => [String.mk acc.reverse]
    | '\r' :: '\n' :: rest, acc => String.mk acc.reverse :: go rest []
    | '\r' :: rest, acc => String.mk acc.reverse :: go rest []
    | '\n' :: rest, acc => String.mk acc.reverse :: go rest []
    | c :: rest, acc => go rest (c :: acc)

/-- One line of git diff --numstat output: blank lines are skipped, lines
with fewer than three tab-separated fields are skipped, a dash count (binary
file) parses as 0, and a count that fails int conversion skips the line. -/
def parseNumstatLine (line : String) : Option (String × Nat × Nat) :=
  if pyStrip line == "" then none
  else
    match pySplitOn '\t' line with
    | p0 :: p1 :: p2 :: _ =>
        match (if p0 == "-" then some 0 else p0.toNat?),
              (if p1 == "-" then some 0 else p1.toNat?) with
        | some added, some deleted => some (p2, added, deleted)
        | _, _ => none
    | _ => none

/-- Dictionary insertion for stats[filename] = (added, deleted). -/
def statsInsert : DiffStats → String × Nat × Nat → DiffStats
  | [], e => [e]
  | (k, v) :: rest, e =>
      if k = e.1 then (k, e.2) :: rest else (k, v) :: statsInsert rest e

/-- Embedding of get_diff_stats: validation, then the parsed numstat
mapping. -/
def get_diff_stats (env : GitEnv) (branch base : String) : Except GitErr DiffStats :=
  match validateBranchPair env branch base with
  | some e => .error e
  | none =>
      .ok (((pySplitlines (env.numstatOut base branch)).filterMap parseNumstatLine).foldl
        statsInsert [])

/-! ### Helper lemmas -/

theorem getKey_setKey_self (l : List (String × JValue)) (k : String) (v : JValue) :
    getKey (setKey l k v) k = some v := by
  induction l with
  | nil => simp [setKey, getKey]
  | cons e rest ih =>
      obtain ⟨k1, v1⟩ := e
      by_cases h : k1 = k
      · simp [setKey, getKey, h]
      · simp [setKey, getKey, h, ih]

theorem getKey_setKey_ne (l : List (String × JValue)) (k k2 : String) (v : JValue)
    (h : k2 ≠ k) : getKey (setKey l k v) k2 = getKey l k2 := by
  induction l with
  | nil => simp [setKey, getKey, Ne.symm h]
  | cons e rest ih =>
      obtain ⟨k1, v1⟩ := e
      by_cases h1 : k1 = k
      · subst h1
        simp [setKey, getKey, Ne.symm h]
      · simp [setKey, getKey, h1, ih]

theorem computeTestStats_go (stats : DiffStats) (a b : Nat) :
    stats.foldl
      (fun acc e =>
        if isTestFile e.1 then (acc.1, acc.2 + e.2.1) else (acc.1 + e.2.1, acc.2))
      (a, b)
      = (a + ((stats.filter fun e => !(isTestFile e.1)).map fun e => e.2.1).sum,
         b + ((stats.filter fun e => isTestFile e.1).map fun e => e.2.1).sum) := by
  induction stats generalizing a b with
  | nil => simp
  | cons e rest ih =>
      cases h : isTestFile e.1 <;>
        simp only [List.foldl_cons, h, if_true, if_false, List.filter_cons, Bool.not_true,
          Bool.not_false, ih] <;>
        simp [h] <;> omega

theorem computeTestStats_eq (stats : DiffStats) :
    computeTestStats stats
      = (((stats.filter fun e => !(isTestFile e.1)).map fun e => e.2.1).sum,
         ((stats.filter fun e => isTestFile e.1).map fun e => e.2.1).sum) := by
  simpa [computeTestStats] using computeTestStats_go stats 0 0

theorem added_sum_split (stats : DiffStats) :
    ((stats.filter fun e => !(isTestFile e.1)).map fun e => e.2.1).sum
      + ((stats.filter fun e => isTestFile e.1).map fun e => e.2.1).sum
      = (stats.map fun e => e.2.1).sum := by
  induction stats with
  | nil => simp
  | cons e rest ih => cases h : isTestFile e.1 <;> simp [h] <;> omega

theorem ratioVal_of_pos (p t : Nat) (h : 0 < p) : ratioVal p t = (t : ℚ) / (p : ℚ) := by
  simp [ratioVal, h]

theorem ratioVal_zero_of_pos (t : Nat) (h : 0 < t) : ratioVal 0 t = 100 := by
  simp [ratioVal, h]

theorem ratioVal_zero_zero : ratioVal 0 0 = 0 := by
  simp [ratioVal]

theorem verdictVal_excellent (p t : Nat) (h : 1 ≤ ratioVal p t) :
    verdictVal p t = "EXCELLENT" := by
  simp only [verdictVal]
  rw [if_pos h]

theorem verdictVal_good (p t : Nat) (h1 : 1 / 2 ≤ ratioVal p t) (h2 : ratioVal p t < 1) :
    verdictVal p t = "GOOD" := by
  simp only [verdictVal]
  rw [if_neg (by exact not_le.mpr h2), if_pos h1]

theorem verdictVal_acceptable (p t : Nat) (h1 : 0 < ratioVal p t)
    (h2 : ratioVal p t < 1 / 2) : verdictVal p t = "ACCEPTABLE" := by
  simp only [verdictVal]
  rw [if_neg (by exact not_le.mpr (lt_trans h2 (by norm_num))),
    if_neg (by exact not_le.mpr h2), if_pos h1]

theorem verdictVal_na : verdictVal 0 0 = "N/A" := by
  simp only [verdictVal, ratioVal_zero_zero]
  norm_num

theorem verdictVal_missing (p t : Nat) (h0 : ¬(p = 0 ∧ t = 0))
    (h1 : ¬(1 ≤ ratioVal p t)) (h2 : ¬(1 / 2 ≤ ratioVal p t)) (h3 : ¬(0 < ratioVal p t)) :
    verdictVal p t = "MISSING" := by
  simp only [verdictVal]
  rw [if_neg h1, if_neg h2, if_neg (by exact h3)]
  have : (p == 0 && t == 0) = false := by
    rcases Nat.eq_zero_or_pos p with hp | hp
    · rcases Nat.eq_zero_or_pos t with ht | ht
      · exact absurd ⟨hp, ht⟩ h0
      · simp [hp, Nat.pos_iff_ne_zero.mp ht]
    · simp [Nat.pos_iff_ne_zero.mp hp]
  rw [this]
  simp

/-- C6: every diff-stats entry contributes its added count to exactly one of
the two buckets — production lines are the added counts of the non-test
files, test lines those of the test files — and the two buckets sum to the
total added count. -/
theorem c6_classification_partition (stats : DiffStats) :
    prodLinesOf stats = ((stats.filter fun e => !(isTestFile e.1)).map fun e => e.2.1).sum
    ∧ testLinesOf stats = ((stats.filter fun e => isTestFile e.1).map fun e => e.2.1).sum
    ∧ prodLinesOf stats + testLinesOf stats = (stats.map fun e => e.2.1).sum := by
  refine ⟨?_, ?_, ?_⟩ <;>
    simp [prodLinesOf, testLinesOf, computeTestStats_eq, added_sum_split]

/-- C1 (amended): the scoring computes production and test lines by the
test-substring classification, the ratio by the three-way rule, and the
verdict by the stated thresholds; an empty diff_stats yields N/A, and a
stats map with only non-test files, at least one with a positive added
count, yields MISSING. -/
theorem c1_test_coverage_scoring (stats : DiffStats) :
    (computeTestStats stats
        = (((stats.filter fun e => !(isTestFile e.1)).map fun e => e.2.1).sum,
           ((stats.filter fun e => isTestFile e.1).map fun e => e.2.1).sum))
    ∧ (0 < prodLinesOf stats →
        ratioOf stats = (testLinesOf stats : ℚ) / (prodLinesOf stats : ℚ))
    ∧ (prodLinesOf stats = 0 → 0 < testLinesOf stats → ratioOf stats = 100)
    ∧ (prodLinesOf stats = 0 → testLinesOf stats = 0 → ratioOf stats = 0)
    ∧ (prodLinesOf stats = 0 ∧ testLinesOf stats = 0 → verdictOf stats = "N/A")
    ∧ (1 ≤ ratioOf stats → verdictOf stats = "EXCELLENT")
    ∧ (1 / 2 ≤ ratioOf stats → ratioOf stats < 1 → verdictOf stats = "GOOD")
    ∧ (0 < ratioOf stats → ratioOf stats < 1 / 2 → verdictOf stats = "ACCEPTABLE")
    ∧ (¬(prodLinesOf stats = 0 ∧ testLinesOf stats = 0) → ¬(1 ≤ ratioOf stats) →
        ¬(1 / 2 ≤ ratioOf stats) → ¬(0 < ratioOf stats) → verdictOf stats = "MISSING")
    ∧ verdictOf [] = "N/A"
    ∧ ((∀ e ∈ stats, isTestFile e.1 = false) → (∃ e ∈ stats, 0 < e.2.1) →
        verdictOf stats = "MISSING") := by
  refine ⟨computeTestStats_eq stats, ?_, ?_, ?_, ?_, ?_, ?_, ?_, ?_, ?_, ?_⟩
  · intro hp
    exact ratioVal_of_pos _ _ hp
  · intro hp ht
    unfold ratioOf
    rw [hp]
    exact ratioVal_zero_of_pos _ ht
  · intro hp ht
    unfold ratioOf
    rw [hp, ht]
    exact ratioVal_zero_zero
  · rintro ⟨hp, ht⟩
    unfold verdictOf
    rw [hp, ht]
    exact verdictVal_na
  · intro h
    exact verdictVal_excellent _ _ h
  · intro h1 h2
    exact verdictVal_good _ _ h1 h2
  · intro h1 h2
    exact verdictVal_acceptable _ _ h1 h2
  · intro h0 h1 h2 h3
    exact verdictVal_missing _ _ h0 h1 h2 h3
  · have h1 : prodLinesOf [] = 0 := rfl
    have h2 : testLinesOf [] = 0 := rfl
    unfold verdictOf
    rw [h1, h2]
    exact verdictVal_na
  · intro hall hex
    have hfilt : stats.filter (fun e => isTestFile e.1) = [] :=
      List.filter_eq_nil_iff.mpr (fun e he => by simp [hall e he])
    have hfila : stats.filter (fun e => !(isTestFile e.1)) = stats :=
      List.filter_eq_self.mpr (fun e he => by simp [hall e he])
    have ht : testLinesOf stats = 0 := by
      unfold testLinesOf
      rw [computeTestStats_eq, hfilt]
      rfl
    have hp : 0 < prodLinesOf stats := by
      unfold prodLinesOf
      rw [computeTestStats_eq, hfila]
      obtain ⟨e, he, hpos⟩ := hex
      rcases Nat.eq_zero_or_pos ((stats.map fun e => e.2.1).sum) with hz | hgt
      · exfalso
        have := (List.sum_eq_zero_iff.mp hz) e.2.1 (List.mem_map.mpr ⟨e, he, rfl⟩)
        omega
      · exact hgt
    have hr : ratioOf stats = 0 := by
      unfold ratioOf
      rw [ratioVal_of_pos _ _ hp, ht]
      simp
    refine verdictVal_missing _ _ (fun h => by omega) ?_ ?_ ?_
    · rw [show ratioVal (prodLinesOf stats) (testLinesOf stats) = ratioOf stats from rfl, hr]
      norm_num
    · rw [show ratioVal (prodLinesOf stats) (testLinesOf stats) = ratioOf stats from rfl, hr]
      norm_num
    · rw [show ratioVal (prodLinesOf stats) (testLinesOf stats) = ratioOf stats from rfl, hr]
      norm_num

/-- C1 counterexample: a stats map holding only non-test files but no added
lines is scored N/A, not MISSING, refuting the claim that a stats map with
only non-test files always yields MISSING. -/
theorem c1_counterexample :
    (∀ e ∈ ([("src/app.py", (0, 3))] : DiffStats), isTestFile e.1 = false)
    ∧ verdictOf [("src/app.py", (0, 3))] = "N/A"
    ∧ ("N/A" : String) ≠ "MISSING" := by
  refine ⟨by decide, ?_, by decide⟩
  have h1 : prodLinesOf [("src/app.py", (0, 3))] = 0 := by decide
  have h2 : testLinesOf [("src/app.py", (0, 3))] = 0 := by decide
  unfold verdictOf
  rw [h1, h2]
  exact verdictVal_na

/-- C1 witness: the scoring theorem instantiated on a concrete stats map
with ratio 50/40, giving verdict EXCELLENT. -/
theorem c1_test_coverage_scoring_witness :
    verdictOf [("src/pay.py", (40, 0)), ("tests/test_pay.py", (50, 0))] = "EXCELLENT" := by
  refine (c1_test_coverage_scoring
    [("src/pay.py", (40, 0)), ("tests/test_pay.py", (50, 0))]).2.2.2.2.2.1 ?_
  have h1 : prodLinesOf [("src/pay.py", (40, 0)), ("tests/test_pay.py", (50, 0))] = 40 := by
    decide
  have h2 : testLinesOf [("src/pay.py", (40, 0)), ("tests/test_pay.py", (50, 0))] = 50 := by
    decide
  unfold ratioOf
  rw [h1, h2, ratioVal_of_pos _ _ (by norm_num)]
  norm_num

/-- C9: on a response whose stripped text does not begin with a code fence,
JSON extraction returns exactly the stripped text. -/
theorem c9_extraction_bare_identity (s : String)
    (h : pyStartsWith (pyStrip s) "```" = false) :
    extractJsonContent s = pyStrip s := by
  simp [extractJsonContent, h]

/-- C9 witness: the extraction theorem applied to a concrete bare payload. -/
theorem c9_extraction_bare_identity_witness :
    extractJsonContent "  [1, 2]  " = pyStrip "  [1, 2]  " :=
  c9_extraction_bare_identity _ (by decide)

/-- C2: in both workflow variants the routing terminates whenever a
(non-empty) error is recorded, terminates on a missing approval, and
proceeds to the review stage exactly when the error is unset and the user
approved; the two variants agree on every state. -/
theorem c2_routing (st : ReviewState) (e : String) (b : Bool) :
    (st.error = some e → e ≠ "" → should_continue st = "end")
    ∧ (st.error = none → st.user_approved = false → should_continue st = "end")
    ∧ (st.error = none → st.user_approved = true → should_continue st = "execute_review")
    ∧ (e ≠ "" → legacy_should_continue (some e) b = "end")
    ∧ legacy_should_continue none false = "end"
    ∧ legacy_should_continue none true = "execute_review"
    ∧ should_continue st = legacy_should_continue st.error st.user_approved := by
  refine ⟨?_, ?_, ?_, ?_, rfl, rfl, rfl⟩
  · intro he hne
    simp [should_continue, pyTruthy, he, hne]
  · intro he ha
    simp [should_continue, pyTruthy, he, ha]
  · intro he ha
    simp [should_continue, pyTruthy, he, ha]
  · intro hne
    simp [legacy_should_continue, pyTruthy, hne]

/-- C2 witness: the routing theorem instantiated on a concrete errored
state and on a concrete approved error-free state. -/
theorem c2_routing_witness :
    should_continue
      { initialState "feat" "main" with error := some "boom", user_approved := true } = "end"
    ∧ should_continue { initialState "feat" "main" with user_approved := true }
        = "execute_review" :=
  ⟨(c2_routing { initialState "feat" "main" with
      error := some "boom", user_approved := true } "boom" true).1 rfl (by decide),
   (c2_routing { initialState "feat" "main" with
      user_approved := true } "x" true).2.2.1 rfl rfl⟩

/-- C5: a non-empty manual override activates a skill exactly when it equals
the skill name case-insensitively, with detection never consulted; with no
override, detection alone decides; the override laravel activates the
Laravel skill for every changed-file list, including lists with no PHP
files. -/
theorem c5_manual_override (skill : Skill) (m : String) (repo changed : List String)
    (hm : m ≠ "") :
    (pyLower m = skill.name → skillIsActive (some m) skill repo changed = true)
    ∧ (pyLower m ≠ skill.name → skillIsActive (some m) skill repo changed = false)
    ∧ skillIsActive none skill repo changed = skill.detect repo changed
    ∧ skillIsActive (some "laravel") laravelSkill repo changed = true
    ∧ detect_skills (some "laravel") repo changed = [laravelSkill] := by
  refine ⟨?_, ?_, ?_, rfl, rfl⟩
  · intro hl
    simp [skillIsActive, pyTruthy, hm, hl]
  · intro hl
    simp [skillIsActive, pyTruthy, hm, hl]
  · cases h : skill.detect repo changed <;> simp [skillIsActive, pyTruthy, h]

/-- C5 witness: the override theorem applied to the Laravel skill with a
mixed-case override and no PHP change. -/
theorem c5_manual_override_witness :
    skillIsActive (some "Laravel") laravelSkill ["artisan"] ["README.md"] = true :=
  (c5_manual_override laravelSkill "Laravel" ["artisan"] ["README.md"] (by decide)).1
    (by decide)

/-- C8: the shipped CLI rejects the documented skill-override flag — parsing
the argv of the tests own skill scenario exits with code 1 instead of
accepting it — and the initial pipeline state never carries a manual
override. -/
theorem c8_skill_flag_rejected :
    parse_args ["uatiari", "feature-branch", "--skill=laravel"] = .exited 1
    ∧ ∀ b base, (initialState b base).manual_framework = none := by
  exact ⟨by decide, fun b base => rfl⟩

/-- C7: every branch-comparing git operation validates repository presence,
then the base branch, then the feature branch, each failure yielding its own
distinct error independent of any diff output; get_diff additionally rejects
a whitespace-empty diff and get_changed_files an empty file list. -/
theorem c7_git_validation (env : GitEnv) (branch base : String) :
    (env.insideRepo = false →
        get_diff env branch base = .error .notAGitRepository
        ∧ get_changed_files env branch base = .error .notAGitRepository
        ∧ get_diff_stats env branch base = .error .notAGitRepository)
    ∧ (env.insideRepo = true → env.branchOk base = false →
        get_diff env branch base = .error (.baseBranchNotFound base)
        ∧ get_changed_files env branch base = .error (.baseBranchNotFound base)
        ∧ get_diff_stats env branch base = .error (.baseBranchNotFound base))
    ∧ (env.insideRepo = true → env.branchOk base = true → env.branchOk branch = false →
        get_diff env branch base = .error (.branchNotFound branch)
        ∧ get_changed_files env branch base = .error (.branchNotFound branch)
        ∧ get_diff_stats env branch base = .error (.branchNotFound branch))
    ∧ (validateBranchPair env branch base = none → pyStrip (env.diffOut base branch) = "" →
        get_diff env branch base = .error (.noDifferences base branch))
    ∧ (validateBranchPair env branch base = none → pyStrip (env.diffOut base branch) ≠ "" →
        get_diff env branch base = .ok (env.diffOut base branch))
    ∧ (validateBranchPair env branch base = none →
        splitChangedFiles (env.nameOnlyOut base branch) = [] →
        get_changed_files env branch base = .error (.noFilesChanged base branch))
    ∧ (validateBranchPair env branch base = none →
        splitChangedFiles (env.nameOnlyOut base branch) ≠ [] →
        get_changed_files env branch base
          = .ok (splitChangedFiles (env.nameOnlyOut base branch)))
    ∧ GitErr.notAGitRepository ≠ GitErr.baseBranchNotFound base
    ∧ GitErr.notAGitRepository ≠ GitErr.branchNotFound branch
    ∧ GitErr.baseBranchNotFound base ≠ GitErr.branchNotFound branch := by
  refine ⟨?_, ?_, ?_, ?_, ?_, ?_, ?_, by simp, by simp, by simp⟩
  · intro h
    refine ⟨?_, ?_, ?_⟩ <;>
      simp [get_diff, get_changed_files, get_diff_stats, validateBranchPair, h]
  · intro h1 h2
    refine ⟨?_, ?_, ?_⟩ <;>
      simp [get_diff, get_changed_files, get_diff_stats, validateBranchPair, h1, h2]
  · intro h1 h2 h3
    refine ⟨?_, ?_, ?_⟩ <;>
      simp [get_diff, get_changed_files, get_diff_stats, validateBranchPair, h1, h2, h3]
  · intro hv he
    simp [get_diff, hv, he]
  · intro hv he
    simp [get_diff, hv, he]
  · intro hv he
    simp [get_changed_files, hv, he]
  · intro hv he
    simp [get_changed_files, hv, he]

/-- A git collaborator that is not inside a repository. -/
def gitEnvNoRepo : GitEnv :=
  { insideRepo := false
    branchOk := fun _ => true
    diffOut := fun _ _ => ""
    nameOnlyOut := fun _ _ => ""
    numstatOut := fun _ _ => "" }

/-- A git collaborator inside a repository whose diff output is blank. -/
def gitEnvBlankDiff : GitEnv :=
  { insideRepo := true
    branchOk := fun _ => true
    diffOut := fun _ _ => "  \n"
    nameOnlyOut := fun _ _ => " \n "
    numstatOut := fun _ _ => "" }

/-- C7 witness: the validation theorem instantiated on concrete
collaborators, exercising the repository failure, the empty-diff failure and
the empty-file-list failure. -/
theorem c7_git_validation_witness :
    get_diff gitEnvNoRepo "feat" "main" = .error .notAGitRepository
    ∧ get_diff gitEnvBlankDiff "feat" "main" = .error (.noDifferences "main" "feat")
    ∧ get_changed_files gitEnvBlankDiff "feat" "main" = .error (.noFilesChanged "main" "feat") :=
  ⟨((c7_git_validation gitEnvNoRepo "feat" "main").1 rfl).1,
   (c7_git_validation gitEnvBlankDiff "feat" "main").2.2.2.1 rfl (by decide),
   (c7_git_validation gitEnvBlankDiff "feat" "main").2.2.2.2.2.1 rfl (by decide)⟩

theorem getKey_merge_prod (efs : List (String × JValue)) (stats : DiffStats) :
    getKey (mergeComputedAnalysis efs stats) "production_lines"
      = some (.jnum (prodLinesOf stats)) := by
  unfold mergeComputedAnalysis
  rw [getKey_setKey_ne _ _ _ _ (by decide), getKey_setKey_ne _ _ _ _ (by decide),
    getKey_setKey_ne _ _ _ _ (by decide), getKey_setKey_self]

theorem getKey_merge_test (efs : List (String × JValue)) (stats : DiffStats) :
    getKey (mergeComputedAnalysis efs stats) "test_lines"
      = some (.jnum (testLinesOf stats)) := by
  unfold mergeComputedAnalysis
  rw [getKey_setKey_ne _ _ _ _ (by decide), getKey_setKey_ne _ _ _ _ (by decide),
    getKey_setKey_self]

theorem getKey_merge_ratio (efs : List (String × JValue)) (stats : DiffStats) :
    getKey (mergeComputedAnalysis efs stats) "ratio" = some (.jnum (ratioOf stats)) := by
  unfold mergeComputedAnalysis
  rw [getKey_setKey_ne _ _ _ _ (by decide), getKey_setKey_self]

theorem getKey_merge_verdict (efs : List (String × JValue)) (stats : DiffStats) :
    getKey (mergeComputedAnalysis efs stats) "verdict" = some (.jstr (verdictOf stats)) := by
  unfold mergeComputedAnalysis
  rw [getKey_setKey_self]

theorem getKey_merge_other (efs : List (String × JValue)) (stats : DiffStats) (k : String)
    (h1 : k ≠ "production_lines") (h2 : k ≠ "test_lines") (h3 : k ≠ "ratio")
    (h4 : k ≠ "verdict") :
    getKey (mergeComputedAnalysis efs stats) k = getKey efs k := by
  unfold mergeComputedAnalysis
  rw [getKey_setKey_ne _ _ _ _ h4, getKey_setKey_ne _ _ _ _ h3, getKey_setKey_ne _ _ _ _ h2,
    getKey_setKey_ne _ _ _ _ h1]

/-- C3: an unparseable model response is downgraded to the fallback record
carrying the fixed error message and the original response text, the
pipeline-level error stays unset, the report stage still runs, and the
process exit code is 0. -/
theorem c3_invalid_json_recoverable (st : ReviewState) (repoFiles : Option (List String))
    (response : String) (parse : String → Option JValue)
    (herr : st.error = none)
    (hparse : parse (extractJsonContent response) = none) :
    (runFromApproval st true repoFiles response parse).2 = true
    ∧ (runFromApproval st true repoFiles response parse).1.error = none
    ∧ (runFromApproval st true repoFiles response parse).1.review_result.lookup "error"
        = some (.jstr "Invalid JSON response from LLM")
    ∧ (runFromApproval st true repoFiles response parse).1.review_result.lookup "raw_response"
        = some (.jstr response)
    ∧ mainExitCode (runFromApproval st true repoFiles response parse).1 = 0 := by
  have hroute : should_continue (await_approval st true) = "execute_review" := by
    simp [should_continue, await_approval, pyTruthy, herr]
  have hrun : runFromApproval st true repoFiles response parse
      = (execute_review (await_approval st true) repoFiles response parse, true) := by
    simp [runFromApproval, hroute, generate_report]
  have hpr : parsedReviewResult response parse
      = .jobj [("error", .jstr "Invalid JSON response from LLM"),
               ("raw_response", .jstr response)] := by
    simp [parsedReviewResult, hparse]
  rw [hrun]
  rcases hfil : availableSkills.filter
      (fun skill => skillIsActive (await_approval st true).manual_framework skill
        (repoFiles.getD []) (await_approval st true).changed_files) with _ | ⟨s0, rest⟩
  · refine ⟨rfl, ?_, ?_, ?_, ?_⟩ <;>
      simp [execute_review, hfil, hpr, injectTestAnalysis, JValue.lookup, getKey, setKey,
        mainExitCode, pyTruthy]
  · refine ⟨rfl, ?_, ?_, ?_, ?_⟩ <;>
      simp [execute_review, hfil, hpr, injectTestAnalysis, JValue.lookup, getKey, setKey,
        mainExitCode, pyTruthy]

/-- C3 witness: the recoverability theorem instantiated on the initial state
with a parser that always fails. -/
theorem c3_invalid_json_recoverable_witness :
    (runFromApproval (initialState "feat" "main") true none "not json at all"
        (fun _ => none)).2 = true
    ∧ (runFromApproval (initialState "feat" "main") true none "not json at all"
        (fun _ => none)).1.error = none
    ∧ (runFromApproval (initialState "feat" "main") true none "not json at all"
        (fun _ => none)).1.review_result.lookup "error"
        = some (.jstr "Invalid JSON response from LLM")
    ∧ (runFromApproval (initialState "feat" "main") true none "not json at all"
        (fun _ => none)).1.review_result.lookup "raw_response"
        = some (.jstr "not json at all")
    ∧ mainExitCode (runFromApproval (initialState "feat" "main") true none "not json at all"
        (fun _ => none)).1 = 0 :=
  c3_invalid_json_recoverable (initialState "feat" "main") none "not json at all"
    (fun _ => none) rfl rfl

/-- C10: when parsing fails and a skill is active, the fallback record also
receives the skill metadata and the deterministically computed test_analysis
fields before being stored as the review result. -/
theorem c10_fallback_enrichment (st : ReviewState) (repoFiles : Option (List String))
    (response : String) (parse : String → Option JValue)
    (hparse : parse (extractJsonContent response) = none)
    (hact : skillIsActive st.manual_framework laravelSkill (repoFiles.getD [])
        st.changed_files = true) :
    (execute_review st repoFiles response parse).review_result.lookup "error"
        = some (.jstr "Invalid JSON response from LLM")
    ∧ (execute_review st repoFiles response parse).review_result.lookup "raw_response"
        = some (.jstr response)
    ∧ (execute_review st repoFiles response parse).review_result.lookup "metadata"
        = some (skillMetadata laravelSkill [laravelSkill] st.manual_framework)
    ∧ (execute_review st repoFiles response parse).review_result.lookup "test_analysis"
        = some (.jobj
            [("production_lines", .jnum (prodLinesOf (st.diff_stats.getD []))),
             ("test_lines", .jnum (testLinesOf (st.diff_stats.getD []))),
             ("ratio", .jnum (ratioOf (st.diff_stats.getD []))),
             ("verdict", .jstr (verdictOf (st.diff_stats.getD [])))])
    ∧ (execute_review st repoFiles response parse).error = none := by
  have hpr : parsedReviewResult response parse
      = .jobj [("error", .jstr "Invalid JSON response from LLM"),
               ("raw_response", .jstr response)] := by
    simp [parsedReviewResult, hparse]
  have hfil : availableSkills.filter
      (fun skill => skillIsActive st.manual_framework skill (repoFiles.getD [])
        st.changed_files) = [laravelSkill] := by
    simp [availableSkills, hact]
  refine ⟨?_, ?_, ?_, ?_, ?_⟩ <;>
    simp [execute_review, hfil, hpr, injectTestAnalysis, JValue.lookup, getKey, setKey,
      mergeComputedAnalysis]

/-- Initial state with a manual laravel override and concrete diff stats,
used by the C10 witness. -/
def c10wState : ReviewState :=
  { initialState "feat" "main" with
      manual_framework := some "laravel"
      diff_stats := some [("src/pay.py", (40, 0))] }

/-- C10 witness: the enrichment theorem instantiated with a manual laravel
override and a failing parser. -/
theorem c10_fallback_enrichment_witness :
    (execute_review c10wState none "oops"
        (fun _ => none)).review_result.lookup "metadata"
      = some (skillMetadata laravelSkill [laravelSkill] (some "laravel"))
    ∧ (execute_review c10wState none "oops"
        (fun _ => none)).review_result.lookup "test_analysis"
      = some (.jobj
          [("production_lines", .jnum (prodLinesOf [("src/pay.py", (40, 0))])),
           ("test_lines", .jnum (testLinesOf [("src/pay.py", (40, 0))])),
           ("ratio", .jnum (ratioOf [("src/pay.py", (40, 0))])),
           ("verdict", .jstr (verdictOf [("src/pay.py", (40, 0))]))]) := by
  have h := c10_fallback_enrichment c10wState none "oops" (fun _ => none)
    rfl (by decide)
  exact ⟨h.2.2.1, h.2.2.2.1⟩

/-- C4 (amended): whenever the parsed-or-fallback review result is a JSON
object whose test_analysis entry is absent or itself an object, the stored
result carries a test_analysis object whose four scoring fields are the
deterministically computed values, and every other field of the
model-supplied test_analysis object is preserved untouched. -/
theorem c4_computed_fields (st : ReviewState) (repoFiles : Option (List String))
    (response : String) (parse : String → Option JValue)
    (fs efs0 : List (String × JValue))
    (hobj : parsedReviewResult response parse = .jobj fs)
    (hta : getKey fs "test_analysis" = none ∧ efs0 = []
        ∨ getKey fs "test_analysis" = some (.jobj efs0)) :
    ∃ efs1,
      (execute_review st repoFiles response parse).review_result.lookup "test_analysis"
        = some (.jobj efs1)
      ∧ getKey efs1 "production_lines" = some (.jnum (prodLinesOf (st.diff_stats.getD [])))
      ∧ getKey efs1 "test_lines" = some (.jnum (testLinesOf (st.diff_stats.getD [])))
      ∧ getKey efs1 "ratio" = some (.jnum (ratioOf (st.diff_stats.getD [])))
      ∧ getKey efs1 "verdict" = some (.jstr (verdictOf (st.diff_stats.getD [])))
      ∧ ∀ k, k ≠ "production_lines" → k ≠ "test_lines" → k ≠ "ratio" → k ≠ "verdict" →
          getKey efs1 k = getKey efs0 k := by
  have hrr : ∃ fs2,
      (execute_review st repoFiles response parse).review_result
        = injectTestAnalysis (.jobj fs2) (st.diff_stats.getD [])
      ∧ getKey fs2 "test_analysis" = getKey fs "test_analysis" := by
    rcases hfil : availableSkills.filter
        (fun skill => skillIsActive st.manual_framework skill (repoFiles.getD [])
          st.changed_files) with _ | ⟨s0, rest⟩
    · exact ⟨fs, by simp [execute_review, hfil, hobj], rfl⟩
    · exact ⟨setKey fs "metadata" (skillMetadata s0 (s0 :: rest) st.manual_framework),
        by simp [execute_review, hfil, hobj],
        getKey_setKey_ne _ _ _ _ (by decide)⟩
  obtain ⟨fs2, hrr, hk⟩ := hrr
  refine ⟨mergeComputedAnalysis efs0 (st.diff_stats.getD []), ?_,
    getKey_merge_prod _ _, getKey_merge_test _ _, getKey_merge_ratio _ _,
    getKey_merge_verdict _ _,
    fun k h1 h2 h3 h4 => getKey_merge_other _ _ _ h1 h2 h3 h4⟩
  rw [hrr]
  rcases hta with ⟨hnone, hefs⟩ | hsome
  · subst hefs
    simp [injectTestAnalysis, hk.trans hnone, JValue.lookup, getKey_setKey_self]
  · simp [injectTestAnalysis, hk.trans hsome, JValue.lookup, getKey_setKey_self]

/-- Initial state with concrete diff stats, used to exhibit a model-supplied
non-object test_analysis value. -/
def c4cState : ReviewState :=
  { initialState "feat" "main" with diff_stats := some [("src/app.py", (10, 0))] }

/-- Parser returning an object whose test_analysis is a JSON string. -/
def c4cParse : String → Option JValue :=
  fun _ => some (.jobj [("test_analysis", .jstr "great")])

/-- C4 counterexample: when the model supplies test_analysis as a string,
execute_review leaves it untouched, so the stored test_analysis is not an
object and carries none of the computed fields. -/
theorem c4_counterexample :
    (execute_review c4cState none "resp" c4cParse).review_result.lookup "test_analysis"
      = some (.jstr "great")
    ∧ ∀ efs, (execute_review c4cState none "resp" c4cParse).review_result.lookup
        "test_analysis" ≠ some (.jobj efs) := by
  have h : (execute_review c4cState none "resp" c4cParse).review_result.lookup
      "test_analysis" = some (.jstr "great") := rfl
  refine ⟨h, fun efs hc => ?_⟩
  rw [h] at hc
  simp at hc

/-- Initial state with concrete diff stats for the C4 witness. -/
def c4wState : ReviewState :=
  { initialState "feat" "main" with diff_stats := some [("src/pay.py", (40, 0))] }

/-- Parser returning an object-valued test_analysis with a narrative note. -/
def c4wParse : String → Option JValue :=
  fun _ => some (.jobj [("test_analysis", .jobj [("notes", .jstr "ok")])])

/-- C4 witness: the amended theorem instantiated on a model result whose
test_analysis object carries a notes field. -/
theorem c4_computed_fields_witness :
    ∃ efs1,
      (execute_review c4wState none "resp" c4wParse).review_result.lookup "test_analysis"
        = some (.jobj efs1)
      ∧ getKey efs1 "production_lines"
          = some (.jnum (prodLinesOf (c4wState.diff_stats.getD [])))
      ∧ getKey efs1 "test_lines" = some (.jnum (testLinesOf (c4wState.diff_stats.getD [])))
      ∧ getKey efs1 "ratio" = some (.jnum (ratioOf (c4wState.diff_stats.getD [])))
      ∧ getKey efs1 "verdict" = some (.jstr (verdictOf (c4wState.diff_stats.getD [])))
      ∧ ∀ k, k ≠ "production_lines" → k ≠ "test_lines" → k ≠ "ratio" → k ≠ "verdict" →
          getKey efs1 k = getKey [("notes", JValue.jstr "ok")] k :=
  c4_computed_fields c4wState none "resp" c4wParse
    [("test_analysis", .jobj [("notes", .jstr "ok")])] [("notes", .jstr "ok")]
    rfl (Or.inr rfl)

end Uatiari
